import Mathlib

/-!
Verification of the personal-finance-tracker serverless request handlers
(the Hono app in the supabase edge function source file).

Shallow embedding choices:
- JSON numbers (JS float64 amounts, after parseFloat) are modelled as ℚ.
- The key-value store is a list of (key, value) pairs; keys are the
  strings the handlers build by template-literal interpolation.
- Stored JSON objects are modelled as a sum of Transaction and Budget
  records; spreads ({...obj, f := v}) are record updates.
- Identity resolution (getUserId: token verification delegated to the
  external identity provider) is modelled by an `Option String` input:
  `none` is a missing Authorization header or a rejected token.
- generateId (random plus timestamp) and new Date().toISOString() are
  nondeterministic; they enter each handler as explicit parameters.
-/

/-- Transaction entity as built by the create-transaction handler:
id, amount, type, category, description, date, userId, createdAt,
plus updatedAt (set by update) and importedAt (set by import). -/
structure Transaction where
  id : String
  amount : ℚ
  type : String
  category : String
  description : String
  date : String
  userId : String
  createdAt : String
  updatedAt : Option String
  importedAt : Option String
deriving DecidableEq

/-- Budget entity as built by the create-budget handler. -/
structure Budget where
  id : String
  category : String
  amount : ℚ
  period : String
  userId : String
  createdAt : String
  updatedAt : Option String
  importedAt : Option String
deriving DecidableEq

/-- A value stored in the key-value store: the handlers only ever store
transaction objects and budget objects. -/
inductive Value where
  | txn (t : Transaction)
  | budget (b : Budget)
deriving DecidableEq

/-- Owning user of a stored value (the userId field the handlers set). -/
def Value.owner : Value → String
  | .txn t => t.userId
  | .budget b => b.userId

/-- The key-value store state. -/
abbrev Store := List (String × Value)

/-- Modelled from the spec: kv_store.tsx is not among the repository
source files; spec section 4.2 gives get(key) -> value or absent. -/
def kvGet (s : Store) (k : String) : Option Value :=
  (s.find? (fun kv => kv.1 == k)).map (fun kv => kv.2)

/-- Modelled from the spec: kv_store.tsx is not among the repository
source files; spec section 4.2 gives set(key, value); the new pair
replaces any pair with the same key. -/
def kvSet (s : Store) (k : String) (v : Value) : Store :=
  (k, v) :: s.filter (fun kv => kv.1 != k)

/-- Modelled from the spec: kv_store.tsx is not among the repository
source files; spec section 4.2 gives delete(key). -/
def kvDel (s : Store) (k : String) : Store :=
  s.filter (fun kv => kv.1 != k)

/-- Key k starts with the string p (the glossary defines a prefix scan as
retrieval of all stored values whose key starts with a given string). -/
def keyStartsWith (k p : String) : Bool :=
  p.data.isPrefixOf k.data

/-- Modelled from the spec: kv_store.tsx is not among the repository
source files; spec section 4.2 gives scanByPrefix(p) -> the sequence of
stored values whose key starts with p. -/
def kvGetByPrefix (s : Store) (p : String) : List Value :=
  (s.filter (fun kv => keyStartsWith kv.1 p)).map (fun kv => kv.2)

/-- Storage key for one transaction: the template literal
transaction:${userId}:${id} of the handlers. -/
def txnKey (userId id : String) : String :=
  "transaction:" ++ userId ++ ":" ++ id

/-- Scan string for all transactions of a user: transaction:${userId}: . -/
def txnScanKey (userId : String) : String :=
  "transaction:" ++ userId ++ ":"

/-- Storage key for one budget: budget:${userId}:${id}. -/
def budgetKey (userId id : String) : String :=
  "budget:" ++ userId ++ ":" ++ id

/-- Scan string for all budgets of a user: budget:${userId}: . -/
def budgetScanKey (userId : String) : String :=
  "budget:" ++ userId ++ ":"

/-- Handler response: ok carries the JSON body of a 200 response, err
carries an HTTP status and the message of an {error: message} body. -/
inductive HResp (α : Type) where
  | ok (body : α)
  | err (status : Nat) (error : String)
deriving DecidableEq

/-- Request body of create/update transaction after destructuring
{amount, type, category, description, date}; amount is the numeric
value that parseFloat yields. -/
structure TxnBody where
  amount : ℚ
  type : String
  category : String
  description : String
  date : String
deriving DecidableEq

/-- Request body of create/update budget: {category, amount, period}. -/
structure BudgetBody where
  category : String
  amount : ℚ
  period : String
deriving DecidableEq

/-- Values read back from a transaction-key scan, viewed as transactions.
The source is untyped and uses scan results directly as transactions;
transaction keys only ever hold transaction values (see the store
well-formedness lemmas), so the budget case never fires on a reachable
store. -/
def asTxns (vs : List Value) : List Transaction :=
  vs.filterMap (fun v => match v with | .txn t => some t | .budget _ => none)

/-- Values read back from a budget-key scan, viewed as budgets. -/
def asBudgets (vs : List Value) : List Budget :=
  vs.filterMap (fun v => match v with | .txn _ => none | .budget b => some b)

/-- updateBudgetSpending: scans the budgets of the user and finds the one
with the matching category, then does nothing with it (the source keeps
the function for future enhancements like notifications); the store is
returned unchanged. -/
def updateBudgetSpending (s : Store) (userId category : String) (_amount : ℚ) : Store :=
  let budgets := asBudgets (kvGetByPrefix s (budgetScanKey userId))
  let _budget := budgets.find? (fun b => b.category == category)
  s

/-- GET /transactions: 401 without an identity, else the prefix scan of
the transactions of the caller. -/
def getTransactions (auth : Option String) (s : Store) : HResp (List Value) × Store :=
  match auth with
  | none => (.err 401 "Unauthorized", s)
  | some userId => (.ok (kvGetByPrefix s (txnScanKey userId)), s)

/-- POST /transactions: build the transaction object, store it under
transaction:userId:id, recompute budget spending when the type is
expense, respond with the transaction. -/
def createTransaction (auth : Option String) (body : TxnBody) (newId now : String)
    (s : Store) : HResp Transaction × Store :=
  match auth with
  | none => (.err 401 "Unauthorized", s)
  | some userId =>
    let transaction : Transaction :=
      { id := newId, amount := body.amount, type := body.type,
        category := body.category, description := body.description,
        date := body.date, userId := userId, createdAt := now,
        updatedAt := none, importedAt := none }
    let s₁ := kvSet s (txnKey userId transaction.id) (.txn transaction)
    let s₂ := if body.type == "expense" then
        updateBudgetSpending s₁ userId body.category body.amount
      else s₁
    (.ok transaction, s₂)

/-- PUT /transactions/:id: 404 when nothing is stored under the key of
the caller for that id; otherwise spread the existing transaction,
replace amount/type/category/description/date, set updatedAt, store it
back under the same key, recompute budget spending for the old and the
new type, respond with the updated transaction. A budget value under a
transaction key is unreachable (store well-formedness); that case is
mapped to the not-found response. -/
def updateTransaction (auth : Option String) (id : String) (body : TxnBody)
    (now : String) (s : Store) : HResp Transaction × Store :=
  match auth with
  | none => (.err 401 "Unauthorized", s)
  | some userId =>
    match kvGet s (txnKey userId id) with
    | none => (.err 404 "Transaction not found", s)
    | some (.budget _) => (.err 404 "Transaction not found", s)
    | some (.txn existing) =>
      let updated : Transaction :=
        { existing with
          amount := body.amount
          type := body.type
          category := body.category
          description := body.description
          date := body.date
          updatedAt := some now }
      let s₁ := kvSet s (txnKey userId id) (.txn updated)
      let s₂ := if existing.type == "expense" then
          updateBudgetSpending s₁ userId existing.category (-existing.amount)
        else s₁
      let s₃ := if body.type == "expense" then
          updateBudgetSpending s₂ userId body.category body.amount
        else s₂
      (.ok updated, s₃)

/-- DELETE /transactions/:id: 404 when nothing is stored under the key,
else delete the key, recompute budget spending when the stored value had
type expense (a stored budget value has no type field and skips that
branch), respond {success: true}. -/
def deleteTransaction (auth : Option String) (id : String) (s : Store) :
    HResp Bool × Store :=
  match auth with
  | none => (.err 401 "Unauthorized", s)
  | some userId =>
    match kvGet s (txnKey userId id) with
    | none => (.err 404 "Transaction not found", s)
    | some v =>
      let s₁ := kvDel s (txnKey userId id)
      let s₂ := match v with
        | .txn existing =>
          if existing.type == "expense" then
            updateBudgetSpending s₁ userId existing.category (-existing.amount)
          else s₁
        | .budget _ => s₁
      (.ok true, s₂)

/-- One budget of the GET /budgets response: the stored budget spread
together with the derived spent and remaining fields. -/
structure BudgetWithSpending extends Budget where
  spent : ℚ
  remaining : ℚ
deriving DecidableEq

/-- GET /budgets: scan the budgets and the transactions of the caller,
and enrich each budget with spent (the sum of amount over the scanned
transactions whose type is expense and whose category matches) and
remaining (budget amount minus spent). -/
def getBudgets (auth : Option String) (s : Store) :
    HResp (List BudgetWithSpending) × Store :=
  match auth with
  | none => (.err 401 "Unauthorized", s)
  | some userId =>
    let budgets := asBudgets (kvGetByPrefix s (budgetScanKey userId))
    let transactions := asTxns (kvGetByPrefix s (txnScanKey userId))
    let budgetsWithSpending := budgets.map (fun budget =>
      let categorySpending :=
        (transactions.filter (fun t =>
          t.type == "expense" && t.category == budget.category)).foldl
          (fun sum t => sum + t.amount) 0
      { toBudget := budget, spent := categorySpending,
        remaining := budget.amount - categorySpending })
    (.ok budgetsWithSpending, s)

/-- POST /budgets: build the budget object, store it under
budget:userId:id, respond with it. -/
def createBudget (auth : Option String) (body : BudgetBody) (newId now : String)
    (s : Store) : HResp Budget × Store :=
  match auth with
  | none => (.err 401 "Unauthorized", s)
  | some userId =>
    let budget : Budget :=
      { id := newId, category := body.category, amount := body.amount,
        period := body.period, userId := userId, createdAt := now,
        updatedAt := none, importedAt := none }
    (.ok budget, kvSet s (budgetKey userId budget.id) (.budget budget))

/-- PUT /budgets/:id: 404 when absent, else spread the existing budget,
replace category/amount/period, set updatedAt, store it back. A
transaction value under a budget key is unreachable (store
well-formedness); that case is mapped to the not-found response. -/
def updateBudget (auth : Option String) (id : String) (body : BudgetBody)
    (now : String) (s : Store) : HResp Budget × Store :=
  match auth with
  | none => (.err 401 "Unauthorized", s)
  | some userId =>
    match kvGet s (budgetKey userId id) with
    | none => (.err 404 "Budget not found", s)
    | some (.txn _) => (.err 404 "Budget not found", s)
    | some (.budget existing) =>
      let updated : Budget :=
        { existing with
          category := body.category
          amount := body.amount
          period := body.period
          updatedAt := some now }
      (.ok updated, kvSet s (budgetKey userId id) (.budget updated))

/-- DELETE /budgets/:id: 404 when absent, else delete the key and
respond {success: true}. -/
def deleteBudget (auth : Option String) (id : String) (s : Store) :
    HResp Bool × Store :=
  match auth with
  | none => (.err 401 "Unauthorized", s)
  | some userId =>
    match kvGet s (budgetKey userId id) with
    | none => (.err 404 "Budget not found", s)
    | some _ => (.ok true, kvDel s (budgetKey userId id))

/-- Body of the GET /export response. -/
structure ExportPayload where
  transactions : List Transaction
  budgets : List Budget
  exportDate : String
  version : String
deriving DecidableEq

/-- GET /export: the scans of both kinds for the caller, the export date
and the fixed version string. -/
def exportData (auth : Option String) (now : String) (s : Store) :
    HResp ExportPayload × Store :=
  match auth with
  | none => (.err 401 "Unauthorized", s)
  | some userId =>
    (.ok { transactions := asTxns (kvGetByPrefix s (txnScanKey userId)),
           budgets := asBudgets (kvGetByPrefix s (budgetScanKey userId)),
           exportDate := now, version := "1.0" }, s)

/-- Import loop over the supplied transactions: each item is spread,
given a freshly generated id (gen i for the i-th item), the userId of
the caller and an importedAt stamp, and written under the new key. -/
def importTransactions (userId now : String) (gen : Nat → String) :
    Store → List Transaction → Nat → Store
  | s, [], _ => s
  | s, t :: rest, i =>
    let newTransaction := { t with id := gen i, userId := userId, importedAt := some now }
    importTransactions userId now gen
      (kvSet s (txnKey userId newTransaction.id) (.txn newTransaction)) rest (i + 1)

/-- Import loop over the supplied budgets, analogous to the
transaction loop. -/
def importBudgets (userId now : String) (gen : Nat → String) :
    Store → List Budget → Nat → Store
  | s, [], _ => s
  | s, b :: rest, i =>
    let newBudget := { b with id := gen i, userId := userId, importedAt := some now }
    importBudgets userId now gen
      (kvSet s (budgetKey userId newBudget.id) (.budget newBudget)) rest (i + 1)

/-- The imported counts of the POST /import response. -/
structure ImportCounts where
  transactions : Nat
  budgets : Nat
deriving DecidableEq

/-- POST /import: write every supplied transaction and budget as a new
entity (fresh id, ownership reassigned to the caller), then respond
{success: true, imported: {transactions: n, budgets: m}}. genT i and
genB i are the ids generateId returns for the i-th transaction and the
i-th budget. -/
def importData (auth : Option String) (txns : List Transaction) (buds : List Budget)
    (genT genB : Nat → String) (now : String) (s : Store) :
    HResp ImportCounts × Store :=
  match auth with
  | none => (.err 401 "Unauthorized", s)
  | some userId =>
    let s₁ := importTransactions userId now genT s txns 0
    let s₂ := importBudgets userId now genB s₁ buds 0
    (.ok { transactions := txns.length, budgets := buds.length }, s₂)

/-- DELETE /delete-account: scan both kinds for the caller and delete
each entity one by one, then respond {success: true}. -/
def deleteAccount (auth : Option String) (s : Store) : HResp Bool × Store :=
  match auth with
  | none => (.err 401 "Unauthorized", s)
  | some userId =>
    let transactions := asTxns (kvGetByPrefix s (txnScanKey userId))
    let budgets := asBudgets (kvGetByPrefix s (budgetScanKey userId))
    let s₁ := transactions.foldl (fun st t => kvDel st (txnKey userId t.id)) s
    let s₂ := budgets.foldl (fun st b => kvDel st (budgetKey userId b.id)) s₁
    (.ok true, s₂)

/-- Well-formed store entry: the key the value sits under is exactly the
key the handlers build from the userId and id fields of the value. -/
def entryWF : String × Value → Bool
  | (k, .txn t) => k == txnKey t.userId t.id
  | (k, .budget b) => k == budgetKey b.userId b.id

/-- Well-formed store: every entry is keyed by its own owner and id. -/
def StoreWF (s : Store) : Prop := ∀ kv ∈ s, entryWF kv = true

/-- A user identifier that does not contain the key separator. The
external identity provider issues such identifiers. -/
def ColonFreeId (u : String) : Prop := ':' ∉ u.data

/-- Every owner recorded in the store has a separator-free identifier. -/
def StoreColonFree (s : Store) : Prop := ∀ kv ∈ s, ColonFreeId (Value.owner kv.2)

/-- Transactions of user u present in the store, read off the values. -/
def userTxns (u : String) (s : Store) : List Transaction :=
  s.filterMap (fun kv => match kv.2 with
    | .txn t => if t.userId == u then some t else none
    | .budget _ => none)

/-- Budgets of user u present in the store, read off the values. -/
def userBudgets (u : String) (s : Store) : List Budget :=
  s.filterMap (fun kv => match kv.2 with
    | .txn _ => none
    | .budget b => if b.userId == u then some b else none)

/-- Spec-side spending figure: the sum of amount over the transactions
of user u whose type is expense and whose category is cat. -/
def spentOn (u cat : String) (s : Store) : ℚ :=
  (((userTxns u s).filter (fun t =>
    t.type == "expense" && t.category == cat)).map (fun t => t.amount)).sum

/-- The fields of a transaction that the export/import round trip must
preserve: amount, type, category, description, date. -/
def txnData (t : Transaction) : ℚ × String × String × String × String :=
  (t.amount, t.type, t.category, t.description, t.date)

/-- The fields of a budget that the export/import round trip must
preserve: category, amount, period. -/
def budgetData (b : Budget) : String × ℚ × String :=
  (b.category, b.amount, b.period)

/-- A generator hands out pairwise distinct ids for the first n calls. -/
def InjOn (gen : Nat → String) (n : Nat) : Prop :=
  ∀ j, j < n → ∀ k, k < n → j ≠ k → gen j ≠ gen k

instance (gen : Nat → String) (n : Nat) : Decidable (InjOn gen n) := by
  unfold InjOn; infer_instance

/-! ### Concrete stores used by the scenario checks and the witnesses -/

/-- The Food budget of the concrete scenario of the spec, as the
create-budget handler stores it. -/
def foodBudget : Budget :=
  { id := "b1", category := "Food", amount := 200, period := "monthly",
    userId := "uA", createdAt := "d0", updatedAt := none, importedAt := none }

/-- Scenario store after creating the Food budget (limit 200, monthly). -/
def scenarioStore1 : Store :=
  (createBudget (some "uA")
    { category := "Food", amount := 200, period := "monthly" } "b1" "d0" []).2

/-- Scenario store after the first Food expense of 50. -/
def scenarioStore2 : Store :=
  (createTransaction (some "uA")
    { amount := 50, type := "expense", category := "Food",
      description := "groceries", date := "2024-01-01" } "t1" "d1" scenarioStore1).2

/-- Scenario store after the second Food expense of 80. -/
def scenarioStore3 : Store :=
  (createTransaction (some "uA")
    { amount := 80, type := "expense", category := "Food",
      description := "dinner", date := "2024-01-02" } "t2" "d2" scenarioStore2).2

/-- Scenario store after deleting the first expense. -/
def scenarioStore4 : Store := (deleteTransaction (some "uA") "t1" scenarioStore3).2

/-- A transaction owned by the user with identifier u:v, whose identifier
contains the key separator. -/
def otherUserTxn : Transaction :=
  { id := "t1", amount := 5, type := "expense", category := "Food",
    description := "d", date := "2024-01-01", userId := "u:v", createdAt := "c0",
    updatedAt := none, importedAt := none }

/-- A concrete transaction used by witnesses. -/
def wTxn : Transaction :=
  { id := "t1", amount := 50, type := "expense", category := "Food",
    description := "groceries", date := "2024-01-01", userId := "uA",
    createdAt := "c1", updatedAt := none, importedAt := none }

/-- A concrete budget used by witnesses. -/
def wBudget : Budget :=
  { id := "b1", category := "Food", amount := 200, period := "monthly",
    userId := "uA", createdAt := "c0", updatedAt := none, importedAt := none }

/-- A concrete one-transaction one-budget store used by witnesses. -/
def wStore : Store :=
  [(txnKey "uA" "t1", Value.txn wTxn), (budgetKey "uA" "b1", Value.budget wBudget)]

instance (s : Store) : Decidable (StoreWF s) := by
  unfold StoreWF; infer_instance

instance (u : String) : Decidable (ColonFreeId u) := by
  unfold ColonFreeId; infer_instance

instance (s : Store) : Decidable (StoreColonFree s) := by
  unfold StoreColonFree; infer_instance

/-! ### String and key lemmas -/

lemma str_eq_of_data {a b : String} (h : a.data = b.data) : a = b := by
  cases a; cases b; exact congrArg String.mk h

lemma data_colon : (":" : String).data = [':'] := rfl

lemma keyStartsWith_iff {k p : String} : keyStartsWith k p = true ↔ p.data <+: k.data := by
  simp [keyStartsWith, List.isPrefixOf_iff_prefix]

lemma txnKey_eq_scan_append (u e : String) : txnKey u e = txnScanKey u ++ e := rfl

lemma budgetKey_eq_scan_append (u e : String) : budgetKey u e = budgetScanKey u ++ e := rfl

lemma data_txnScanKey (u : String) :
    (txnScanKey u).data = ("transaction:" : String).data ++ (u.data ++ [':']) := by
  simp [txnScanKey, String.data_append, data_colon]

lemma data_txnKey (u e : String) :
    (txnKey u e).data = ("transaction:" : String).data ++ (u.data ++ ':' :: e.data) := by
  simp [txnKey, String.data_append, data_colon]

lemma data_budgetScanKey (u : String) :
    (budgetScanKey u).data = ("budget:" : String).data ++ (u.data ++ [':']) := by
  simp [budgetScanKey, String.data_append, data_colon]

lemma data_budgetKey (u e : String) :
    (budgetKey u e).data = ("budget:" : String).data ++ (u.data ++ ':' :: e.data) := by
  simp [budgetKey, String.data_append, data_colon]

lemma colon_segment {a b e : List Char} (ha : ':' ∉ a) (hb : ':' ∉ b)
    (h : (a ++ [':']) <+: (b ++ ':' :: e)) : a = b := by
  induction a generalizing b with
  | nil =>
    cases b with
    | nil => rfl
    | cons y ys =>
      rw [List.nil_append, List.cons_append, List.cons_prefix_cons] at h
      exact absurd h.1 (by simp at hb; exact hb.1)
  | cons x xs ih =>
    cases b with
    | nil =>
      rw [List.cons_append, List.nil_append, List.cons_prefix_cons] at h
      exact absurd h.1.symm (by simp at ha; exact ha.1)
    | cons y ys =>
      rw [List.cons_append, List.cons_append, List.cons_prefix_cons] at h
      have h2 := ih (by simp at ha; exact ha.2) (by simp at hb; exact hb.2) h.2
      rw [h.1, h2]

lemma txn_scan_self (u e : String) : keyStartsWith (txnKey u e) (txnScanKey u) = true := by
  rw [keyStartsWith_iff, txnKey_eq_scan_append, String.data_append]
  exact List.prefix_append _ _

lemma budget_scan_self (u e : String) :
    keyStartsWith (budgetKey u e) (budgetScanKey u) = true := by
  rw [keyStartsWith_iff, budgetKey_eq_scan_append, String.data_append]
  exact List.prefix_append _ _

lemma txn_scan_eq_user {u v : String} (e : String) (hu : ColonFreeId u) (hv : ColonFreeId v)
    (h : keyStartsWith (txnKey v e) (txnScanKey u) = true) : u = v := by
  rw [keyStartsWith_iff, data_txnKey, data_txnScanKey] at h
  rw [List.prefix_append_right_inj] at h
  exact str_eq_of_data (colon_segment hu hv h)

lemma budget_scan_eq_user {u v : String} (e : String) (hu : ColonFreeId u) (hv : ColonFreeId v)
    (h : keyStartsWith (budgetKey v e) (budgetScanKey u) = true) : u = v := by
  rw [keyStartsWith_iff, data_budgetKey, data_budgetScanKey] at h
  rw [List.prefix_append_right_inj] at h
  exact str_eq_of_data (colon_segment hu hv h)

lemma budget_scan_not_txn (u v e : String) :
    keyStartsWith (budgetKey v e) (txnScanKey u) = false := by
  rw [Bool.eq_false_iff]
  intro h
  rw [keyStartsWith_iff, data_budgetKey, data_txnScanKey] at h
  have h1 : ("transaction:" : String).data ++ (u.data ++ [':']) =
      't' :: (("ransaction:" : String).data ++ (u.data ++ [':'])) := rfl
  have h2 : ("budget:" : String).data ++ (v.data ++ ':' :: e.data) =
      'b' :: (("udget:" : String).data ++ (v.data ++ ':' :: e.data)) := rfl
  rw [h1, h2] at h
  exact absurd (List.cons_prefix_cons.mp h).1 (by decide)

lemma txn_scan_not_budget (u v e : String) :
    keyStartsWith (txnKey v e) (budgetScanKey u) = false := by
  rw [Bool.eq_false_iff]
  intro h
  rw [keyStartsWith_iff, data_txnKey, data_budgetScanKey] at h
  have h1 : ("budget:" : String).data ++ (u.data ++ [':']) =
      'b' :: (("udget:" : String).data ++ (u.data ++ [':'])) := rfl
  have h2 : ("transaction:" : String).data ++ (v.data ++ ':' :: e.data) =
      't' :: (("ransaction:" : String).data ++ (v.data ++ ':' :: e.data)) := rfl
  rw [h1, h2] at h
  exact absurd (List.cons_prefix_cons.mp h).1 (by decide)

lemma txnKey_ne_budgetKey (u i v j : String) : txnKey u i ≠ budgetKey v j := by
  intro h
  have hd := congrArg String.data h
  rw [data_txnKey, data_budgetKey] at hd
  have h1 : ("transaction:" : String).data ++ (u.data ++ ':' :: i.data) =
      't' :: (("ransaction:" : String).data ++ (u.data ++ ':' :: i.data)) := rfl
  have h2 : ("budget:" : String).data ++ (v.data ++ ':' :: j.data) =
      'b' :: (("udget:" : String).data ++ (v.data ++ ':' :: j.data)) := rfl
  rw [h1, h2] at hd
  have : 't' = 'b' := by injection hd
  exact absurd this (by decide)

lemma txnKey_inj_id {u a b : String} (h : txnKey u a = txnKey u b) : a = b := by
  have hd := congrArg String.data h
  rw [data_txnKey, data_txnKey] at hd
  have hd2 := List.append_cancel_left hd
  have hd3 := List.append_cancel_left hd2
  exact str_eq_of_data (by injection hd3)

lemma budgetKey_inj_id {u a b : String} (h : budgetKey u a = budgetKey u b) : a = b := by
  have hd := congrArg String.data h
  rw [data_budgetKey, data_budgetKey] at hd
  have hd2 := List.append_cancel_left hd
  have hd3 := List.append_cancel_left hd2
  exact str_eq_of_data (by injection hd3)

lemma txnKey_not_budget_lit (u i : String) :
    keyStartsWith (txnKey u i) "budget:" = false := by
  rw [Bool.eq_false_iff]
  intro h
  rw [keyStartsWith_iff, data_txnKey] at h
  have h2 : ("transaction:" : String).data ++ (u.data ++ ':' :: i.data) =
      't' :: (("ransaction:" : String).data ++ (u.data ++ ':' :: i.data)) := rfl
  have h1 : ("budget:" : String).data = 'b' :: ("udget:" : String).data := rfl
  rw [h1, h2] at h
  exact absurd (List.cons_prefix_cons.mp h).1 (by decide)

/-! ### Key-value store lemmas -/

lemma find_filter_ne (s : Store) (k k' : String) (h : k' ≠ k) :
    (s.filter (fun kv => kv.1 != k)).find? (fun kv => kv.1 == k') =
    s.find? (fun kv => kv.1 == k') := by
  have hkk : (k == k') = false := beq_eq_false_iff_ne.mpr (fun hh => h hh.symm)
  induction s with
  | nil => rfl
  | cons a t ih =>
    by_cases ha : a.1 = k
    · simp [List.filter_cons, List.find?_cons, ha, hkk, ih]
    · by_cases hk : a.1 = k'
      · simp [List.filter_cons, List.find?_cons, ha, hk, h]
      · simp [List.filter_cons, List.find?_cons, ha, hk, ih]

lemma kvGet_kvSet_same (s : Store) (k : String) (v : Value) :
    kvGet (kvSet s k v) k = some v := by
  simp [kvGet, kvSet, List.find?_cons]

lemma kvGet_kvSet_ne (s : Store) (k k' : String) (v : Value) (h : k' ≠ k) :
    kvGet (kvSet s k v) k' = kvGet s k' := by
  have hb : (k == k') = false := by rw [beq_eq_false_iff_ne]; exact fun hh => h hh.symm
  simp only [kvGet, kvSet, List.find?_cons, hb]
  rw [find_filter_ne s k k' h]

lemma kvGet_kvDel_ne (s : Store) (k k' : String) (h : k' ≠ k) :
    kvGet (kvDel s k) k' = kvGet s k' := by
  simp only [kvGet, kvDel]
  rw [find_filter_ne s k k' h]

lemma kvGet_cons_ne (k₀ : String) (v₀ : Value) (s : Store) (k : String) (h : k ≠ k₀) :
    kvGet ((k₀, v₀) :: s) k = kvGet s k := by
  have hb : (k₀ == k) = false := by rw [beq_eq_false_iff_ne]; exact fun hh => h hh.symm
  simp [kvGet, List.find?_cons, hb]

lemma filter_eq_of_get_none (s : Store) (k : String) (h : kvGet s k = none) :
    s.filter (fun kv => kv.1 != k) = s := by
  apply List.filter_eq_self.mpr
  intro a ha
  simp only [kvGet, Option.map_eq_none', List.find?_eq_none] at h
  simpa using h a ha

lemma kvSet_fresh (s : Store) (k : String) (v : Value) (h : kvGet s k = none) :
    kvSet s k v = (k, v) :: s := by
  rw [kvSet, filter_eq_of_get_none s k h]

lemma mem_of_kvGet_eq_some {s : Store} {k : String} {v : Value}
    (h : kvGet s k = some v) : (k, v) ∈ s := by
  simp only [kvGet, Option.map_eq_some'] at h
  obtain ⟨a, hf, hv⟩ := h
  have hmem := List.mem_of_find?_eq_some hf
  have hp := List.find?_some hf
  have hk : a.1 = k := by simpa using hp
  have : a = (k, v) := Prod.ext hk hv
  exact this ▸ hmem

/-! ### Scan characterization -/

lemma kvGetByPrefix_cons (k : String) (v : Value) (s : Store) (p : String) :
    kvGetByPrefix ((k, v) :: s) p =
    if keyStartsWith k p then v :: kvGetByPrefix s p else kvGetByPrefix s p := by
  simp only [kvGetByPrefix, List.filter_cons]
  split <;> simp_all

lemma userTxns_cons_txn (k : String) (t : Transaction) (s : Store) (u : String) :
    userTxns u ((k, .txn t) :: s) =
    if t.userId == u then t :: userTxns u s else userTxns u s := by
  by_cases h : t.userId = u
  · simp [userTxns, List.filterMap_cons, h]
  · simp [userTxns, List.filterMap_cons, h]

lemma userTxns_cons_budget (k : String) (b : Budget) (s : Store) (u : String) :
    userTxns u ((k, .budget b) :: s) = userTxns u s := rfl

lemma userBudgets_cons_budget (k : String) (b : Budget) (s : Store) (u : String) :
    userBudgets u ((k, .budget b) :: s) =
    if b.userId == u then b :: userBudgets u s else userBudgets u s := by
  by_cases h : b.userId = u
  · simp [userBudgets, List.filterMap_cons, h]
  · simp [userBudgets, List.filterMap_cons, h]

lemma userBudgets_cons_txn (k : String) (t : Transaction) (s : Store) (u : String) :
    userBudgets u ((k, .txn t) :: s) = userBudgets u s := rfl

lemma asTxns_cons_txn (t : Transaction) (vs : List Value) :
    asTxns (.txn t :: vs) = t :: asTxns vs := rfl

lemma asTxns_cons_budget (b : Budget) (vs : List Value) :
    asTxns (.budget b :: vs) = asTxns vs := rfl

lemma asBudgets_cons_budget (b : Budget) (vs : List Value) :
    asBudgets (.budget b :: vs) = b :: asBudgets vs := rfl

lemma asBudgets_cons_txn (t : Transaction) (vs : List Value) :
    asBudgets (.txn t :: vs) = asBudgets vs := rfl

lemma asTxns_scan (s : Store) (u : String) (hwf : StoreWF s) (hu : ColonFreeId u)
    (hcf : StoreColonFree s) :
    asTxns (kvGetByPrefix s (txnScanKey u)) = userTxns u s := by
  induction s with
  | nil => rfl
  | cons kv rest ih =>
    obtain ⟨hk, hwf'⟩ := List.forall_mem_cons.mp hwf
    obtain ⟨hc, hcf'⟩ := List.forall_mem_cons.mp hcf
    have ihe := ih hwf' hcf'
    obtain ⟨k, v⟩ := kv
    cases v with
    | txn t =>
      have hkey : k = txnKey t.userId t.id := by simpa [entryWF] using hk
      have hct : ColonFreeId t.userId := hc
      by_cases he : t.userId = u
      · have hpre : keyStartsWith k (txnScanKey u) = true := by
          rw [hkey, he]; exact txn_scan_self u t.id
        rw [kvGetByPrefix_cons, hpre, if_pos rfl, asTxns_cons_txn,
          userTxns_cons_txn, if_pos (by simp [he]), ihe]
      · have hpre : keyStartsWith k (txnScanKey u) = false := by
          rw [hkey, Bool.eq_false_iff]
          intro hcontra
          exact he (txn_scan_eq_user t.id hu hct hcontra).symm
        rw [kvGetByPrefix_cons, hpre, if_neg (by simp), userTxns_cons_txn,
          if_neg (by simp [he]), ihe]
    | budget b =>
      have hkey : k = budgetKey b.userId b.id := by simpa [entryWF] using hk
      have hpre : keyStartsWith k (txnScanKey u) = false := by
        rw [hkey]; exact budget_scan_not_txn u b.userId b.id
      rw [kvGetByPrefix_cons, hpre, if_neg (by simp), userTxns_cons_budget, ihe]

lemma asBudgets_scan (s : Store) (u : String) (hwf : StoreWF s) (hu : ColonFreeId u)
    (hcf : StoreColonFree s) :
    asBudgets (kvGetByPrefix s (budgetScanKey u)) = userBudgets u s := by
  induction s with
  | nil => rfl
  | cons kv rest ih =>
    obtain ⟨hk, hwf'⟩ := List.forall_mem_cons.mp hwf
    obtain ⟨hc, hcf'⟩ := List.forall_mem_cons.mp hcf
    have ihe := ih hwf' hcf'
    obtain ⟨k, v⟩ := kv
    cases v with
    | budget b =>
      have hkey : k = budgetKey b.userId b.id := by simpa [entryWF] using hk
      have hcb : ColonFreeId b.userId := hc
      by_cases he : b.userId = u
      · have hpre : keyStartsWith k (budgetScanKey u) = true := by
          rw [hkey, he]; exact budget_scan_self u b.id
        rw [kvGetByPrefix_cons, hpre, if_pos rfl, asBudgets_cons_budget,
          userBudgets_cons_budget, if_pos (by simp [he]), ihe]
      · have hpre : keyStartsWith k (budgetScanKey u) = false := by
          rw [hkey, Bool.eq_false_iff]
          intro hcontra
          exact he (budget_scan_eq_user b.id hu hcb hcontra).symm
        rw [kvGetByPrefix_cons, hpre, if_neg (by simp), userBudgets_cons_budget,
          if_neg (by simp [he]), ihe]
    | txn t =>
      have hkey : k = txnKey t.userId t.id := by simpa [entryWF] using hk
      have hpre : keyStartsWith k (budgetScanKey u) = false := by
        rw [hkey]; exact txn_scan_not_budget u t.userId t.id
      rw [kvGetByPrefix_cons, hpre, if_neg (by simp), userBudgets_cons_txn, ihe]

lemma scan_txn_shape (s : Store) (u : String) (hwf : StoreWF s) (hu : ColonFreeId u)
    (hcf : StoreColonFree s) :
    ∀ v ∈ kvGetByPrefix s (txnScanKey u), ∃ t, v = Value.txn t ∧ t.userId = u := by
  induction s with
  | nil => intro v hv; exact absurd hv (by simp [kvGetByPrefix])
  | cons kv rest ih =>
    obtain ⟨hk, hwf'⟩ := List.forall_mem_cons.mp hwf
    obtain ⟨hc, hcf'⟩ := List.forall_mem_cons.mp hcf
    have ihe := ih hwf' hcf'
    obtain ⟨k, v⟩ := kv
    intro w hw
    cases v with
    | txn t =>
      have hkey : k = txnKey t.userId t.id := by simpa [entryWF] using hk
      by_cases hpre : keyStartsWith k (txnScanKey u) = true
      · rw [kvGetByPrefix_cons, if_pos hpre] at hw
        rcases List.mem_cons.mp hw with hw1 | hw2
        · exact ⟨t, hw1, (txn_scan_eq_user t.id hu hc (hkey ▸ hpre)).symm⟩
        · exact ihe w hw2
      · rw [kvGetByPrefix_cons, if_neg hpre] at hw
        exact ihe w hw
    | budget b =>
      have hkey : k = budgetKey b.userId b.id := by simpa [entryWF] using hk
      have hpre : keyStartsWith k (txnScanKey u) = false := by
        rw [hkey]; exact budget_scan_not_txn u b.userId b.id
      rw [kvGetByPrefix_cons, hpre, if_neg (by simp)] at hw
      exact ihe w hw

lemma scan_budget_shape (s : Store) (u : String) (hwf : StoreWF s) (hu : ColonFreeId u)
    (hcf : StoreColonFree s) :
    ∀ v ∈ kvGetByPrefix s (budgetScanKey u), ∃ b, v = Value.budget b ∧ b.userId = u := by
  induction s with
  | nil => intro v hv; exact absurd hv (by simp [kvGetByPrefix])
  | cons kv rest ih =>
    obtain ⟨hk, hwf'⟩ := List.forall_mem_cons.mp hwf
    obtain ⟨hc, hcf'⟩ := List.forall_mem_cons.mp hcf
    have ihe := ih hwf' hcf'
    obtain ⟨k, v⟩ := kv
    intro w hw
    cases v with
    | budget b =>
      have hkey : k = budgetKey b.userId b.id := by simpa [entryWF] using hk
      by_cases hpre : keyStartsWith k (budgetScanKey u) = true
      · rw [kvGetByPrefix_cons, if_pos hpre] at hw
        rcases List.mem_cons.mp hw with hw1 | hw2
        · exact ⟨b, hw1, (budget_scan_eq_user b.id hu hc (hkey ▸ hpre)).symm⟩
        · exact ihe w hw2
      · rw [kvGetByPrefix_cons, if_neg hpre] at hw
        exact ihe w hw
    | txn t =>
      have hkey : k = txnKey t.userId t.id := by simpa [entryWF] using hk
      have hpre : keyStartsWith k (budgetScanKey u) = false := by
        rw [hkey]; exact txn_scan_not_budget u t.userId t.id
      rw [kvGetByPrefix_cons, hpre, if_neg (by simp)] at hw
      exact ihe w hw

/-! ### Store well-formedness preservation -/

lemma storeWF_kvSet {s : Store} (hwf : StoreWF s) {k : String} {v : Value}
    (hv : entryWF (k, v) = true) : StoreWF (kvSet s k v) := by
  intro kv hkv
  rcases List.mem_cons.mp hkv with h1 | h2
  · subst h1; exact hv
  · exact hwf kv (List.mem_of_mem_filter h2)

lemma storeWF_kvDel {s : Store} (hwf : StoreWF s) (k : String) : StoreWF (kvDel s k) :=
  fun kv hkv => hwf kv (List.mem_of_mem_filter hkv)

lemma entryWF_of_kvGet {s : Store} {k : String} {v : Value} (hwf : StoreWF s)
    (h : kvGet s k = some v) : entryWF (k, v) = true :=
  hwf _ (mem_of_kvGet_eq_some h)

lemma foldl_amount (l : List Transaction) (c : ℚ) :
    l.foldl (fun sum t => sum + t.amount) c = c + (l.map (fun t => t.amount)).sum := by
  induction l generalizing c with
  | nil => simp
  | cons t rest ih => simp [List.foldl_cons, ih, add_assoc]

/-! ### Import loop lemmas -/

lemma importTxns_other (u now : String) (gen : Nat → String) (ts : List Transaction) :
    ∀ (i : Nat) (s : Store) (K : String),
    (∀ j, i ≤ j → j < i + ts.length → K ≠ txnKey u (gen j)) →
    kvGet (importTransactions u now gen s ts i) K = kvGet s K := by
  induction ts with
  | nil => intro i s K _; rfl
  | cons t rest ih =>
    intro i s K hK
    simp only [importTransactions]
    rw [ih (i + 1) _ K (fun j h1 h2 => hK j (by omega) (by simp only [List.length_cons] at h2 ⊢; omega))]
    exact kvGet_kvSet_ne s _ K _ (hK i (le_refl i) (by simp only [List.length_cons]; omega))

lemma importBudgets_other (u now : String) (gen : Nat → String) (bs : List Budget) :
    ∀ (i : Nat) (s : Store) (K : String),
    (∀ j, i ≤ j → j < i + bs.length → K ≠ budgetKey u (gen j)) →
    kvGet (importBudgets u now gen s bs i) K = kvGet s K := by
  induction bs with
  | nil => intro i s K _; rfl
  | cons b rest ih =>
    intro i s K hK
    simp only [importBudgets]
    rw [ih (i + 1) _ K (fun j h1 h2 => hK j (by omega) (by simp only [List.length_cons] at h2 ⊢; omega))]
    exact kvGet_kvSet_ne s _ K _ (hK i (le_refl i) (by simp only [List.length_cons]; omega))

lemma importTxns_get (u now : String) (gen : Nat → String) (ts : List Transaction) :
    ∀ (i : Nat) (s : Store),
    (∀ j k, i ≤ j → j < i + ts.length → i ≤ k → k < i + ts.length → j ≠ k →
      txnKey u (gen j) ≠ txnKey u (gen k)) →
    ∀ (j : Nat) (hj : j < ts.length),
    kvGet (importTransactions u now gen s ts i) (txnKey u (gen (i + j))) =
      some (.txn { ts.get ⟨j, hj⟩ with
        id := gen (i + j)
        userId := u
        importedAt := some now }) := by
  induction ts with
  | nil => intro i s _ j hj; exact absurd hj (by simp)
  | cons t rest ih =>
    intro i s hdis j hj
    cases j with
    | zero =>
      simp only [importTransactions]
      rw [importTxns_other u now gen rest (i + 1) _ _ ?_]
      · simpa using kvGet_kvSet_same s _ _
      · intro jj h1 h2
        exact hdis i jj (le_refl i) (by simp only [List.length_cons]; omega) (by omega)
          (by simp only [List.length_cons] at h2 ⊢; omega) (by omega)
    | succ j' =>
      simp only [importTransactions]
      rw [show i + (j' + 1) = (i + 1) + j' by omega]
      exact ih (i + 1) _
        (fun a b h1 h2 h3 h4 h5 =>
          hdis a b (by omega) (by simp only [List.length_cons] at h2 ⊢; omega) (by omega)
            (by simp only [List.length_cons] at h4 ⊢; omega) h5)
        j' (by simpa using Nat.lt_of_succ_lt_succ hj)

lemma importBudgets_get (u now : String) (gen : Nat → String) (bs : List Budget) :
    ∀ (i : Nat) (s : Store),
    (∀ j k, i ≤ j → j < i + bs.length → i ≤ k → k < i + bs.length → j ≠ k →
      budgetKey u (gen j) ≠ budgetKey u (gen k)) →
    ∀ (j : Nat) (hj : j < bs.length),
    kvGet (importBudgets u now gen s bs i) (budgetKey u (gen (i + j))) =
      some (.budget { bs.get ⟨j, hj⟩ with
        id := gen (i + j)
        userId := u
        importedAt := some now }) := by
  induction bs with
  | nil => intro i s _ j hj; exact absurd hj (by simp)
  | cons b rest ih =>
    intro i s hdis j hj
    cases j with
    | zero =>
      simp only [importBudgets]
      rw [importBudgets_other u now gen rest (i + 1) _ _ ?_]
      · simpa using kvGet_kvSet_same s _ _
      · intro jj h1 h2
        exact hdis i jj (le_refl i) (by simp only [List.length_cons]; omega) (by omega)
          (by simp only [List.length_cons] at h2 ⊢; omega) (by omega)
    | succ j' =>
      simp only [importBudgets]
      rw [show i + (j' + 1) = (i + 1) + j' by omega]
      exact ih (i + 1) _
        (fun a b h1 h2 h3 h4 h5 =>
          hdis a b (by omega) (by simp only [List.length_cons] at h2 ⊢; omega) (by omega)
            (by simp only [List.length_cons] at h4 ⊢; omega) h5)
        j' (by simpa using Nat.lt_of_succ_lt_succ hj)


lemma userTxns_importTxns (u now : String) (gen : Nat → String) (ts : List Transaction) :
    ∀ (i : Nat) (s : Store),
    (∀ j, i ≤ j → j < i + ts.length → kvGet s (txnKey u (gen j)) = none) →
    (∀ j k, i ≤ j → j < i + ts.length → i ≤ k → k < i + ts.length → j ≠ k →
      txnKey u (gen j) ≠ txnKey u (gen k)) →
    ((userTxns u (importTransactions u now gen s ts i)).map txnData).Perm
      (ts.map txnData ++ (userTxns u s).map txnData) := by
  induction ts with
  | nil => intro i s _ _; simp [importTransactions]
  | cons t rest ih =>
    intro i s hfresh hdis
    simp only [importTransactions]
    rw [kvSet_fresh s _ _ (hfresh i (le_refl i) (by simp only [List.length_cons]; omega))]
    have hperm := ih (i + 1)
      ((txnKey u (gen i),
        Value.txn { t with id := gen i, userId := u, importedAt := some now }) :: s)
      (fun j h1 h2 => by
        rw [kvGet_cons_ne _ _ _ _
          (hdis j i (by omega) (by simp only [List.length_cons] at h2 ⊢; omega)
            (by omega) (by simp only [List.length_cons]; omega) (by omega))]
        exact hfresh j (by omega) (by simp only [List.length_cons] at h2 ⊢; omega))
      (fun a b h1 h2 h3 h4 h5 =>
        hdis a b (by omega) (by simp only [List.length_cons] at h2 ⊢; omega)
          (by omega) (by simp only [List.length_cons] at h4 ⊢; omega) h5)
    rw [userTxns_cons_txn, if_pos (by simp)] at hperm
    have hdata : txnData { t with id := gen i, userId := u, importedAt := some now } =
        txnData t := rfl
    rw [List.map_cons, hdata] at hperm
    refine hperm.trans ?_
    simp only [List.map_cons, List.cons_append]
    exact List.perm_middle

lemma userBudgets_importTxns (u now : String) (gen : Nat → String) (ts : List Transaction) :
    ∀ (i : Nat) (s : Store),
    (∀ j, i ≤ j → j < i + ts.length → kvGet s (txnKey u (gen j)) = none) →
    (∀ j k, i ≤ j → j < i + ts.length → i ≤ k → k < i + ts.length → j ≠ k →
      txnKey u (gen j) ≠ txnKey u (gen k)) →
    userBudgets u (importTransactions u now gen s ts i) = userBudgets u s := by
  induction ts with
  | nil => intro i s _ _; rfl
  | cons t rest ih =>
    intro i s hfresh hdis
    simp only [importTransactions]
    rw [kvSet_fresh s _ _ (hfresh i (le_refl i) (by simp only [List.length_cons]; omega))]
    rw [ih (i + 1)
      ((txnKey u (gen i),
        Value.txn { t with id := gen i, userId := u, importedAt := some now }) :: s)
      (fun j h1 h2 => by
        rw [kvGet_cons_ne _ _ _ _
          (hdis j i (by omega) (by simp only [List.length_cons] at h2 ⊢; omega)
            (by omega) (by simp only [List.length_cons]; omega) (by omega))]
        exact hfresh j (by omega) (by simp only [List.length_cons] at h2 ⊢; omega))
      (fun a b h1 h2 h3 h4 h5 =>
        hdis a b (by omega) (by simp only [List.length_cons] at h2 ⊢; omega)
          (by omega) (by simp only [List.length_cons] at h4 ⊢; omega) h5)]
    exact userBudgets_cons_txn _ _ _ _

lemma userBudgets_importBudgets (u now : String) (gen : Nat → String) (bs : List Budget) :
    ∀ (i : Nat) (s : Store),
    (∀ j, i ≤ j → j < i + bs.length → kvGet s (budgetKey u (gen j)) = none) →
    (∀ j k, i ≤ j → j < i + bs.length → i ≤ k → k < i + bs.length → j ≠ k →
      budgetKey u (gen j) ≠ budgetKey u (gen k)) →
    ((userBudgets u (importBudgets u now gen s bs i)).map budgetData).Perm
      (bs.map budgetData ++ (userBudgets u s).map budgetData) := by
  induction bs with
  | nil => intro i s _ _; simp [importBudgets]
  | cons b rest ih =>
    intro i s hfresh hdis
    simp only [importBudgets]
    rw [kvSet_fresh s _ _ (hfresh i (le_refl i) (by simp only [List.length_cons]; omega))]
    have hperm := ih (i + 1)
      ((budgetKey u (gen i),
        Value.budget { b with id := gen i, userId := u, importedAt := some now }) :: s)
      (fun j h1 h2 => by
        rw [kvGet_cons_ne _ _ _ _
          (hdis j i (by omega) (by simp only [List.length_cons] at h2 ⊢; omega)
            (by omega) (by simp only [List.length_cons]; omega) (by omega))]
        exact hfresh j (by omega) (by simp only [List.length_cons] at h2 ⊢; omega))
      (fun a b2 h1 h2 h3 h4 h5 =>
        hdis a b2 (by omega) (by simp only [List.length_cons] at h2 ⊢; omega)
          (by omega) (by simp only [List.length_cons] at h4 ⊢; omega) h5)
    rw [userBudgets_cons_budget, if_pos (by simp)] at hperm
    have hdata : budgetData { b with id := gen i, userId := u, importedAt := some now } =
        budgetData b := rfl
    rw [List.map_cons, hdata] at hperm
    refine hperm.trans ?_
    simp only [List.map_cons, List.cons_append]
    exact List.perm_middle

lemma userTxns_importBudgets (u now : String) (gen : Nat → String) (bs : List Budget) :
    ∀ (i : Nat) (s : Store),
    (∀ j, i ≤ j → j < i + bs.length → kvGet s (budgetKey u (gen j)) = none) →
    (∀ j k, i ≤ j → j < i + bs.length → i ≤ k → k < i + bs.length → j ≠ k →
      budgetKey u (gen j) ≠ budgetKey u (gen k)) →
    userTxns u (importBudgets u now gen s bs i) = userTxns u s := by
  induction bs with
  | nil => intro i s _ _; rfl
  | cons b rest ih =>
    intro i s hfresh hdis
    simp only [importBudgets]
    rw [kvSet_fresh s _ _ (hfresh i (le_refl i) (by simp only [List.length_cons]; omega))]
    rw [ih (i + 1)
      ((budgetKey u (gen i),
        Value.budget { b with id := gen i, userId := u, importedAt := some now }) :: s)
      (fun j h1 h2 => by
        rw [kvGet_cons_ne _ _ _ _
          (hdis j i (by omega) (by simp only [List.length_cons] at h2 ⊢; omega)
            (by omega) (by simp only [List.length_cons]; omega) (by omega))]
        exact hfresh j (by omega) (by simp only [List.length_cons] at h2 ⊢; omega))
      (fun a b2 h1 h2 h3 h4 h5 =>
        hdis a b2 (by omega) (by simp only [List.length_cons] at h2 ⊢; omega)
          (by omega) (by simp only [List.length_cons] at h4 ⊢; omega) h5)]
    exact userTxns_cons_budget _ _ _ _

/-! ### Claim theorems -/

/-- C3: for every protected route (every route except /signup and /health),
a request on which identity resolution fails (auth = none, covering both a
missing Authorization header and a rejected token) receives status 401 with
body {error: "Unauthorized"}, and the store is left untouched. -/
theorem C3_unauthorized_401 :
    (∀ s, getTransactions none s = (.err 401 "Unauthorized", s)) ∧
    (∀ body newId now s,
      createTransaction none body newId now s = (.err 401 "Unauthorized", s)) ∧
    (∀ id body now s,
      updateTransaction none id body now s = (.err 401 "Unauthorized", s)) ∧
    (∀ id s, deleteTransaction none id s = (.err 401 "Unauthorized", s)) ∧
    (∀ s, getBudgets none s = (.err 401 "Unauthorized", s)) ∧
    (∀ body newId now s,
      createBudget none body newId now s = (.err 401 "Unauthorized", s)) ∧
    (∀ id body now s, updateBudget none id body now s = (.err 401 "Unauthorized", s)) ∧
    (∀ id s, deleteBudget none id s = (.err 401 "Unauthorized", s)) ∧
    (∀ now s, exportData none now s = (.err 401 "Unauthorized", s)) ∧
    (∀ txns buds genT genB now s,
      importData none txns buds genT genB now s = (.err 401 "Unauthorized", s)) ∧
    (∀ s, deleteAccount none s = (.err 401 "Unauthorized", s)) :=
  ⟨fun _ => rfl, fun _ _ _ _ => rfl, fun _ _ _ _ => rfl, fun _ _ => rfl,
   fun _ => rfl, fun _ _ _ _ => rfl, fun _ _ _ _ => rfl, fun _ _ => rfl,
   fun _ _ => rfl, fun _ _ _ _ _ _ => rfl, fun _ => rfl⟩

/-- C4: for an authenticated user and a transaction id with nothing stored
under transaction:userId:id (never created, or owned by another user and so
stored under a different key), PUT answers 404 {error: "Transaction not
found"}, DELETE answers the same not-found response rather than a silent
success, and both leave the store unchanged. -/
theorem C4_not_found (s : Store) (u id now : String) (body : TxnBody)
    (h : kvGet s (txnKey u id) = none) :
    updateTransaction (some u) id body now s = (.err 404 "Transaction not found", s) ∧
    deleteTransaction (some u) id s = (.err 404 "Transaction not found", s) := by
  constructor
  · simp only [updateTransaction, h]
  · simp only [deleteTransaction, h]

/-- C4 witness: the empty store holds nothing under the key of user uA and
id missing, and both handlers answer 404 and leave the store empty. -/
theorem C4_witness :
    updateTransaction (some "uA") "missing"
      { amount := 1, type := "expense", category := "Food", description := "d",
        date := "2024-01-01" } "d9" [] = (.err 404 "Transaction not found", []) ∧
    deleteTransaction (some "uA") "missing" [] = (.err 404 "Transaction not found", []) :=
  C4_not_found [] "uA" "missing" "d9"
    { amount := 1, type := "expense", category := "Food", description := "d",
      date := "2024-01-01" } rfl

/-- C10: a successful update of an existing transaction merges the request
body over the stored entity: id, userId, createdAt and importedAt are kept,
amount, type, category, description and date are replaced, updatedAt is set,
and the result is stored back under the same key and returned. -/
theorem C10_update_merge (s : Store) (u id now : String) (body : TxnBody)
    (t : Transaction) (hget : kvGet s (txnKey u id) = some (.txn t)) :
    (updateTransaction (some u) id body now s).1 =
      .ok { t with
        amount := body.amount
        type := body.type
        category := body.category
        description := body.description
        date := body.date
        updatedAt := some now } ∧
    (∃ t', kvGet (updateTransaction (some u) id body now s).2 (txnKey u id) =
      some (.txn t') ∧ t'.id = t.id ∧ t'.userId = t.userId ∧
      t'.createdAt = t.createdAt ∧ t'.importedAt = t.importedAt ∧
      t'.amount = body.amount ∧ t'.type = body.type ∧ t'.category = body.category ∧
      t'.description = body.description ∧ t'.date = body.date ∧
      t'.updatedAt = some now) := by
  constructor
  · simp only [updateTransaction, hget]
  · refine ⟨{ t with
      amount := body.amount
      type := body.type
      category := body.category
      description := body.description
      date := body.date
      updatedAt := some now }, ?_, rfl, rfl, rfl, rfl, rfl, rfl, rfl, rfl, rfl, rfl⟩
    simp only [updateTransaction, hget, updateBudgetSpending, ite_self]
    exact kvGet_kvSet_same s _ _

/-- C10 witness: updating the stored transaction t1 of user uA replaces the
body fields, keeps the identity fields and sets updatedAt. -/
theorem C10_witness :
    (updateTransaction (some "uA") "t1"
      { amount := 75, type := "expense", category := "Food", description := "g2",
        date := "2024-02-01" } "d5" wStore).1 =
      .ok { wTxn with
        amount := 75
        type := "expense"
        category := "Food"
        description := "g2"
        date := "2024-02-01"
        updatedAt := some "d5" } :=
  (C10_update_merge wStore "uA" "t1" "d5"
    { amount := 75, type := "expense", category := "Food", description := "g2",
      date := "2024-02-01" } wTxn rfl).1

/-- C6 counterexample: the create-transaction handler applies no sign check,
so a request body with amount -50 is persisted with the negative stored
amount -50; the claim that a negative request amount is never persisted as a
negative stored amount is false on this code. -/
theorem C6_counterexample :
    kvGet (createTransaction (some "uA")
        { amount := -50, type := "expense", category := "Food", description := "d",
          date := "2024-01-01" } "t1" "d1" []).2 (txnKey "uA" "t1") =
      some (.txn { id := "t1"
                   amount := -50
                   type := "expense"
                   category := "Food"
                   description := "d"
                   date := "2024-01-01"
                   userId := "uA"
                   createdAt := "d1"
                   updatedAt := none
                   importedAt := none }) ∧ ((-50 : ℚ) < 0) := by
  constructor
  · rfl
  · norm_num

/-- C6 as amended: the stored amount of a created or updated transaction
equals the numeric amount of the request body unchanged; the handlers apply
no sign normalization, so the sign of the stored amount is the sign of the
request amount, and the direction flag type is stored separately. -/
theorem C6_amount_passthrough (u newId now : String) (body : TxnBody) (s : Store) :
    (∃ t, kvGet (createTransaction (some u) body newId now s).2 (txnKey u newId) =
      some (.txn t) ∧ t.amount = body.amount) ∧
    (∀ id t₀, kvGet s (txnKey u id) = some (.txn t₀) →
      ∃ t, kvGet (updateTransaction (some u) id body now s).2 (txnKey u id) =
        some (.txn t) ∧ t.amount = body.amount) := by
  constructor
  · refine ⟨{ id := newId
              amount := body.amount
              type := body.type
              category := body.category
              description := body.description
              date := body.date
              userId := u
              createdAt := now
              updatedAt := none
              importedAt := none }, ?_, rfl⟩
    simp only [createTransaction, updateBudgetSpending, ite_self]
    exact kvGet_kvSet_same s _ _
  · intro id t₀ hget
    refine ⟨{ t₀ with
              amount := body.amount
              type := body.type
              category := body.category
              description := body.description
              date := body.date
              updatedAt := some now }, ?_, rfl⟩
    simp only [updateTransaction, hget, updateBudgetSpending, ite_self]
    exact kvGet_kvSet_same s _ _

/-- C6 witness: updating the stored transaction t1 of user uA with a body
whose amount is 50 stores amount 50, the stored-transaction hypothesis
discharged by evaluation. -/
theorem C6_witness :
    ∃ t, kvGet (updateTransaction (some "uA") "t1"
      { amount := 50, type := "expense", category := "Food", description := "d",
        date := "2024-01-01" } "d9" wStore).2 (txnKey "uA" "t1") =
      some (.txn t) ∧ t.amount = 50 :=
  (C6_amount_passthrough "uA" "t9" "d9"
    { amount := 50, type := "expense", category := "Food", description := "d",
      date := "2024-01-01" } wStore).2 "t1" wTxn rfl

/-- C8: the budget-spending recomputation step is a no-op on the store, and
creating, updating or deleting a transaction (expense or not) leaves every
value stored under a budget-prefixed key unchanged. -/
theorem C8_budget_frame (s : Store) (k : String)
    (hk : keyStartsWith k "budget:" = true) :
    (∀ userId category amount, updateBudgetSpending s userId category amount = s) ∧
    (∀ auth body newId now,
      kvGet (createTransaction auth body newId now s).2 k = kvGet s k) ∧
    (∀ auth id body now,
      kvGet (updateTransaction auth id body now s).2 k = kvGet s k) ∧
    (∀ auth id, kvGet (deleteTransaction auth id s).2 k = kvGet s k) := by
  have hne : ∀ u i, k ≠ txnKey u i := by
    intro u i he
    rw [he, txnKey_not_budget_lit] at hk
    exact Bool.false_ne_true hk
  refine ⟨fun _ _ _ => rfl, ?_, ?_, ?_⟩
  · intro auth body newId now
    cases auth with
    | none => rfl
    | some u =>
      simp only [createTransaction, updateBudgetSpending, ite_self]
      exact kvGet_kvSet_ne s _ k _ (hne u newId)
  · intro auth id body now
    cases auth with
    | none => rfl
    | some u =>
      cases hget : kvGet s (txnKey u id) with
      | none => simp only [updateTransaction, hget]
      | some v =>
        cases v with
        | budget b => simp only [updateTransaction, hget]
        | txn t =>
          simp only [updateTransaction, hget, updateBudgetSpending, ite_self]
          exact kvGet_kvSet_ne s _ k _ (hne u id)
  · intro auth id
    cases auth with
    | none => rfl
    | some u =>
      cases hget : kvGet s (txnKey u id) with
      | none => simp only [deleteTransaction, hget]
      | some v =>
        simp only [deleteTransaction, hget]
        cases v with
        | txn t =>
          simp only [updateBudgetSpending, ite_self]
          exact kvGet_kvDel_ne s _ k (hne u id)
        | budget b => exact kvGet_kvDel_ne s _ k (hne u id)

/-- C8 witness: creating a transaction for user uA leaves the stored budget
under budget:uA:b1 exactly as it was. -/
theorem C8_witness :
    kvGet (createTransaction (some "uA")
      { amount := 50, type := "expense", category := "Food", description := "d",
        date := "2024-01-01" } "t9" "d9" wStore).2 "budget:uA:b1" =
    kvGet wStore "budget:uA:b1" :=
  (C8_budget_frame wStore "budget:uA:b1" (by decide)).2.1 (some "uA")
    { amount := 50, type := "expense", category := "Food", description := "d",
      date := "2024-01-01" } "t9" "d9"

/-- C1: GET /budgets returns each stored budget of the caller enriched with
spent equal to the sum of amount over the transactions of the caller whose
type is expense and whose category equals the budget category, and remaining
equal to the budget limit minus spent (for a well-formed store whose user
identifiers are free of the key separator); and the concrete scenario: with
the Food budget of limit 200 and one Food expense of 50 the returned budget
has spent 50 and remaining 150, after a second Food expense of 80 it has
spent 130 and remaining 70, and after deleting the first expense it has
spent 80 and remaining 120. -/
theorem C1_budgets_spent_remaining :
    (∀ (s : Store) (u : String), StoreWF s → ColonFreeId u → StoreColonFree s →
      getBudgets (some u) s =
        (.ok ((userBudgets u s).map (fun b =>
          { toBudget := b, spent := spentOn u b.category s,
            remaining := b.amount - spentOn u b.category s })), s)) ∧
    (getBudgets (some "uA") scenarioStore2).1 =
      .ok [{ toBudget := foodBudget, spent := 50, remaining := 150 }] ∧
    (getBudgets (some "uA") scenarioStore3).1 =
      .ok [{ toBudget := foodBudget, spent := 130, remaining := 70 }] ∧
    (getBudgets (some "uA") scenarioStore4).1 =
      .ok [{ toBudget := foodBudget, spent := 80, remaining := 120 }] := by
  refine ⟨?_, ?_, ?_, ?_⟩
  · intro s u hwf hu hcf
    simp only [getBudgets]
    rw [asBudgets_scan s u hwf hu hcf, asTxns_scan s u hwf hu hcf]
    refine congrArg (fun l => (HResp.ok l, s)) (List.map_congr_left ?_)
    intro b _
    simp only [spentOn, foldl_amount, zero_add]
  · simp +decide [getBudgets, createBudget, createTransaction, scenarioStore1,
      scenarioStore2, foodBudget, kvSet, kvGet, kvGetByPrefix,
      updateBudgetSpending, asTxns, asBudgets, txnKey, txnScanKey, budgetKey,
      budgetScanKey, keyStartsWith]
    norm_num
  · simp +decide [getBudgets, createBudget, createTransaction, scenarioStore1,
      scenarioStore2, scenarioStore3, foodBudget, kvSet, kvGet, kvGetByPrefix,
      updateBudgetSpending, asTxns, asBudgets, txnKey, txnScanKey, budgetKey,
      budgetScanKey, keyStartsWith]
    norm_num
  · simp +decide [getBudgets, createBudget, createTransaction, deleteTransaction,
      scenarioStore1, scenarioStore2, scenarioStore3, scenarioStore4, foodBudget,
      kvSet, kvGet, kvDel, kvGetByPrefix, updateBudgetSpending, asTxns, asBudgets,
      txnKey, txnScanKey, budgetKey, budgetScanKey, keyStartsWith]
    norm_num

/-- C1 witness: the general aggregation equation instantiated at the
scenario store holding the Food budget and the 50 Food expense of user uA,
with the well-formedness hypotheses checked by evaluation. -/
theorem C1_witness :
    getBudgets (some "uA") scenarioStore2 =
      (.ok ((userBudgets "uA" scenarioStore2).map (fun b =>
        { toBudget := b, spent := spentOn "uA" b.category scenarioStore2,
          remaining := b.amount - spentOn "uA" b.category scenarioStore2 })),
        scenarioStore2) :=
  C1_budgets_spent_remaining.1 scenarioStore2 "uA" (by decide) (by decide) (by decide)

lemma mem_scan {s : Store} {p : String} {v : Value} :
    v ∈ kvGetByPrefix s p ↔ ∃ k, (k, v) ∈ s ∧ keyStartsWith k p = true := by
  simp only [kvGetByPrefix, List.mem_map, List.mem_filter]
  constructor
  · rintro ⟨⟨k, w⟩, ⟨hmem, hpre⟩, hv⟩
    cases hv
    exact ⟨k, hmem, hpre⟩
  · rintro ⟨k, hmem, hpre⟩
    exact ⟨(k, v), ⟨hmem, hpre⟩, rfl⟩

/-- C2 counterexample: with the user identifiers u and u:v, which are
distinct, the transaction of user u:v is stored under
transaction:u:v:t1, and the prefix scan for the transactions of user u
(prefix transaction:u:) returns it: the claim is false for user
identifiers containing the key separator. -/
theorem C2_counterexample :
    ("u" : String) ≠ "u:v" ∧ otherUserTxn.userId = "u:v" ∧
    (getTransactions (some "u") [(txnKey "u:v" "t1", Value.txn otherUserTxn)]).1 =
      .ok [Value.txn otherUserTxn] :=
  ⟨by decide, rfl, rfl⟩

/-- C2 as amended: for users A and B with A ≠ B whose identifiers do not
contain the key separator (as identifiers issued by the identity provider
do not), the keys built for the entities of A start with kind:A:, and over
a well-formed store a prefix scan with kind:A: returns exactly the stored
entities of that kind owned by A and never an entity owned by B. -/
theorem C2_user_scoped_keys (A B : String) (hA : ColonFreeId A) (hB : ColonFreeId B)
    (hne : A ≠ B) (s : Store) (hwf : StoreWF s) (hcf : StoreColonFree s) :
    (∀ e, keyStartsWith (txnKey A e) (txnScanKey A) = true ∧
      keyStartsWith (budgetKey A e) (budgetScanKey A) = true) ∧
    (∀ t : Transaction, Value.txn t ∈ kvGetByPrefix s (txnScanKey A) ↔
      (t.userId = A ∧ ∃ k, (k, Value.txn t) ∈ s)) ∧
    (∀ b : Budget, Value.budget b ∈ kvGetByPrefix s (budgetScanKey A) ↔
      (b.userId = A ∧ ∃ k, (k, Value.budget b) ∈ s)) ∧
    (∀ v ∈ kvGetByPrefix s (txnScanKey A), Value.owner v ≠ B) ∧
    (∀ v ∈ kvGetByPrefix s (budgetScanKey A), Value.owner v ≠ B) := by
  refine ⟨fun e => ⟨txn_scan_self A e, budget_scan_self A e⟩, ?_, ?_, ?_, ?_⟩
  · intro t
    constructor
    · intro hmem
      obtain ⟨k, hks, hpre⟩ := mem_scan.mp hmem
      have hkey : k = txnKey t.userId t.id := by
        simpa [entryWF] using hwf _ hks
      have hct : ColonFreeId t.userId := hcf _ hks
      exact ⟨(txn_scan_eq_user t.id hA hct (hkey ▸ hpre)).symm, k, hks⟩
    · rintro ⟨hTu, k, hks⟩
      have hkey : k = txnKey t.userId t.id := by
        simpa [entryWF] using hwf _ hks
      refine mem_scan.mpr ⟨k, hks, ?_⟩
      rw [hkey, hTu]
      exact txn_scan_self A t.id
  · intro b
    constructor
    · intro hmem
      obtain ⟨k, hks, hpre⟩ := mem_scan.mp hmem
      have hkey : k = budgetKey b.userId b.id := by
        simpa [entryWF] using hwf _ hks
      have hcb : ColonFreeId b.userId := hcf _ hks
      exact ⟨(budget_scan_eq_user b.id hA hcb (hkey ▸ hpre)).symm, k, hks⟩
    · rintro ⟨hBu, k, hks⟩
      have hkey : k = budgetKey b.userId b.id := by
        simpa [entryWF] using hwf _ hks
      refine mem_scan.mpr ⟨k, hks, ?_⟩
      rw [hkey, hBu]
      exact budget_scan_self A b.id
  · intro v hv
    obtain ⟨t, rfl, hTu⟩ := scan_txn_shape s A hwf hA hcf v hv
    rw [show Value.owner (.txn t) = t.userId from rfl, hTu]
    exact hne
  · intro v hv
    obtain ⟨b, rfl, hBu⟩ := scan_budget_shape s A hwf hA hcf v hv
    rw [show Value.owner (.budget b) = b.userId from rfl, hBu]
    exact hne

/-- C2 witness: the amended isolation statement instantiated for users uA
and uB over the concrete store, with every hypothesis checked by
evaluation; the keys of entity t1 of user uA carry the uA scan prefix. -/
theorem C2_witness :
    keyStartsWith (txnKey "uA" "t1") (txnScanKey "uA") = true ∧
    keyStartsWith (budgetKey "uA" "t1") (budgetScanKey "uA") = true :=
  (C2_user_scoped_keys "uA" "uB" (by decide) (by decide) (by decide) wStore
    (by decide) (by decide)).1 "t1"

lemma storeWF_importTxns (u now : String) (gen : Nat → String) (ts : List Transaction) :
    ∀ (i : Nat) (s : Store), StoreWF s →
    StoreWF (importTransactions u now gen s ts i) := by
  induction ts with
  | nil => intro i s h; exact h
  | cons t rest ih =>
    intro i s h
    simp only [importTransactions]
    exact ih (i + 1) _ (storeWF_kvSet h (by simp [entryWF]))

lemma storeWF_importBudgets (u now : String) (gen : Nat → String) (bs : List Budget) :
    ∀ (i : Nat) (s : Store), StoreWF s →
    StoreWF (importBudgets u now gen s bs i) := by
  induction bs with
  | nil => intro i s h; exact h
  | cons b rest ih =>
    intro i s h
    simp only [importBudgets]
    exact ih (i + 1) _ (storeWF_kvSet h (by simp [entryWF]))

/-- C9: every writing operation (create transaction, create budget, update
transaction, update budget, import) persists each entity under the key
built from the userId and id fields the operation itself sets, so a
well-formed store (every stored value keyed as kind:userId:id with the
userId field of the value itself) stays well-formed: no operation can
store an entity under the key prefix of one user with the userId field of
another. -/
theorem C9_key_ownership (s : Store) (hwf : StoreWF s) :
    (∀ u body newId now, StoreWF (createTransaction (some u) body newId now s).2) ∧
    (∀ u body newId now, StoreWF (createBudget (some u) body newId now s).2) ∧
    (∀ u id body now, StoreWF (updateTransaction (some u) id body now s).2) ∧
    (∀ u id body now, StoreWF (updateBudget (some u) id body now s).2) ∧
    (∀ u txns buds genT genB now,
      StoreWF (importData (some u) txns buds genT genB now s).2) := by
  refine ⟨?_, ?_, ?_, ?_, ?_⟩
  · intro u body newId now
    simp only [createTransaction, updateBudgetSpending, ite_self]
    exact storeWF_kvSet hwf (by simp [entryWF])
  · intro u body newId now
    simp only [createBudget]
    exact storeWF_kvSet hwf (by simp [entryWF])
  · intro u id body now
    cases hget : kvGet s (txnKey u id) with
    | none => simpa only [updateTransaction, hget] using hwf
    | some v =>
      cases v with
      | budget b => simpa only [updateTransaction, hget] using hwf
      | txn t =>
        have hkey : txnKey u id = txnKey t.userId t.id := by
          simpa [entryWF] using entryWF_of_kvGet hwf hget
        simp only [updateTransaction, hget, updateBudgetSpending, ite_self]
        exact storeWF_kvSet hwf (by simp [entryWF, hkey])
  · intro u id body now
    cases hget : kvGet s (budgetKey u id) with
    | none => simpa only [updateBudget, hget] using hwf
    | some v =>
      cases v with
      | txn t => simpa only [updateBudget, hget] using hwf
      | budget b =>
        have hkey : budgetKey u id = budgetKey b.userId b.id := by
          simpa [entryWF] using entryWF_of_kvGet hwf hget
        simp only [updateBudget, hget]
        exact storeWF_kvSet hwf (by simp [entryWF, hkey])
  · intro u txns buds genT genB now
    simp only [importData]
    exact storeWF_importBudgets u now genB buds 0 _
      (storeWF_importTxns u now genT txns 0 s hwf)

/-- C9 witness: creating a transaction for user uB over the concrete store
keeps the store well-formed, the hypothesis checked by evaluation. -/
theorem C9_witness :
    StoreWF (createTransaction (some "uB")
      { amount := 7, type := "income", category := "Other", description := "d",
        date := "2024-03-01" } "t5" "d5" wStore).2 :=
  (C9_key_ownership wStore (by decide)).1 "uB"
    { amount := 7, type := "income", category := "Other", description := "d",
      date := "2024-03-01" } "t5" "d5"

/-- C7: a fully successful import writes each supplied item as a new entity
whose id is the freshly generated one (not the id carried in the item) and
whose userId is the identity of the caller regardless of any userId in the
item, and responds with success and the counts of both arrays. -/
theorem C7_import_fresh_ids (u now : String) (txns : List Transaction)
    (buds : List Budget) (genT genB : Nat → String) (s : Store)
    (hT : InjOn genT txns.length) (hB : InjOn genB buds.length) :
    (importData (some u) txns buds genT genB now s).1 =
      .ok { transactions := txns.length, budgets := buds.length } ∧
    (∀ j (hj : j < txns.length),
      kvGet (importData (some u) txns buds genT genB now s).2 (txnKey u (genT j)) =
        some (.txn { txns.get ⟨j, hj⟩ with
          id := genT j
          userId := u
          importedAt := some now })) ∧
    (∀ j (hj : j < buds.length),
      kvGet (importData (some u) txns buds genT genB now s).2 (budgetKey u (genB j)) =
        some (.budget { buds.get ⟨j, hj⟩ with
          id := genB j
          userId := u
          importedAt := some now })) := by
  have hdisT : ∀ a b, 0 ≤ a → a < 0 + txns.length → 0 ≤ b → b < 0 + txns.length →
      a ≠ b → txnKey u (genT a) ≠ txnKey u (genT b) :=
    fun a b _ ha _ hb hne he => hT a (by omega) b (by omega) hne (txnKey_inj_id he)
  have hdisB : ∀ a b, 0 ≤ a → a < 0 + buds.length → 0 ≤ b → b < 0 + buds.length →
      a ≠ b → budgetKey u (genB a) ≠ budgetKey u (genB b) :=
    fun a b _ ha _ hb hne he => hB a (by omega) b (by omega) hne (budgetKey_inj_id he)
  refine ⟨rfl, ?_, ?_⟩
  · intro j hj
    simp only [importData]
    rw [importBudgets_other u now genB buds 0 _ _
      (fun jj _ _ => txnKey_ne_budgetKey u (genT j) u (genB jj))]
    have hg := importTxns_get u now genT txns 0 s hdisT j hj
    rwa [Nat.zero_add] at hg
  · intro j hj
    simp only [importData]
    have hg := importBudgets_get u now genB buds 0
      (importTransactions u now genT s txns 0) hdisB j hj
    rwa [Nat.zero_add] at hg

/-- C7 witness: importing one transaction and one budget for user uB
responds with success and counts one and one; the generators hand out the
fixed fresh ids nt and nb, injective on one index by evaluation. -/
theorem C7_witness :
    (importData (some "uB") [wTxn] [wBudget] (fun _ => "nt") (fun _ => "nb")
      "i0" []).1 = .ok { transactions := 1, budgets := 1 } :=
  (C7_import_fresh_ids "uB" "i0" [wTxn] [wBudget] (fun _ => "nt") (fun _ => "nb")
    [] (by decide) (by decide)).1

/-- C5: exporting the data of a user and importing the exported arrays into
an empty account of the same user reproduces the same multiset of
transactions and budgets: ids differ (freshly generated on import), but
amount, type, category, description and date of every transaction, and
category, amount and period of every budget, are preserved. Stated for a
well-formed store with separator-free user identifiers and id generators
injective on the imported ranges. -/
theorem C5_export_import_round_trip (s : Store) (u now now2 : String)
    (genT genB : Nat → String) (payload : ExportPayload)
    (hwf : StoreWF s) (hu : ColonFreeId u) (hcf : StoreColonFree s)
    (hexp : (exportData (some u) now s).1 = .ok payload)
    (hT : InjOn genT payload.transactions.length)
    (hB : InjOn genB payload.budgets.length) :
    (((userTxns u (importData (some u) payload.transactions payload.budgets
        genT genB now2 []).2).map txnData : Multiset (ℚ × String × String × String × String)) =
      ((userTxns u s).map txnData : Multiset (ℚ × String × String × String × String))) ∧
    (((userBudgets u (importData (some u) payload.transactions payload.budgets
        genT genB now2 []).2).map budgetData : Multiset (String × ℚ × String)) =
      ((userBudgets u s).map budgetData : Multiset (String × ℚ × String))) := by
  simp only [exportData] at hexp
  rw [HResp.ok.injEq] at hexp
  have hpt : payload.transactions = userTxns u s := by
    rw [← hexp]
    exact asTxns_scan s u hwf hu hcf
  have hpb : payload.budgets = userBudgets u s := by
    rw [← hexp]
    exact asBudgets_scan s u hwf hu hcf
  simp only [importData]
  have hdisT : ∀ a b, 0 ≤ a → a < 0 + payload.transactions.length → 0 ≤ b →
      b < 0 + payload.transactions.length → a ≠ b →
      txnKey u (genT a) ≠ txnKey u (genT b) :=
    fun a b _ ha _ hb hne he => hT a (by omega) b (by omega) hne (txnKey_inj_id he)
  have hdisB : ∀ a b, 0 ≤ a → a < 0 + payload.budgets.length → 0 ≤ b →
      b < 0 + payload.budgets.length → a ≠ b →
      budgetKey u (genB a) ≠ budgetKey u (genB b) :=
    fun a b _ ha _ hb hne he => hB a (by omega) b (by omega) hne (budgetKey_inj_id he)
  have hfreshT : ∀ j, 0 ≤ j → j < 0 + payload.transactions.length →
      kvGet ([] : Store) (txnKey u (genT j)) = none := fun _ _ _ => rfl
  have hfreshB : ∀ j, 0 ≤ j → j < 0 + payload.budgets.length →
      kvGet (importTransactions u now2 genT [] payload.transactions 0)
        (budgetKey u (genB j)) = none := by
    intro j _ _
    rw [importTxns_other u now2 genT payload.transactions 0 [] _
      (fun jj _ _ => (txnKey_ne_budgetKey u (genT jj) u (genB j)).symm)]
    rfl
  constructor
  · rw [userTxns_importBudgets u now2 genB payload.budgets 0
      (importTransactions u now2 genT [] payload.transactions 0) hfreshB hdisB]
    have hperm := userTxns_importTxns u now2 genT payload.transactions 0 []
      hfreshT hdisT
    rw [show userTxns u ([] : Store) = [] from rfl, List.map_nil,
      List.append_nil] at hperm
    rw [← hpt]
    exact Multiset.coe_eq_coe.mpr hperm
  · have hperm := userBudgets_importBudgets u now2 genB payload.budgets 0
      (importTransactions u now2 genT [] payload.transactions 0) hfreshB hdisB
    rw [userBudgets_importTxns u now2 genT payload.transactions 0 []
      hfreshT hdisT] at hperm
    rw [show userBudgets u ([] : Store) = [] from rfl, List.map_nil,
      List.append_nil] at hperm
    rw [← hpb]
    exact Multiset.coe_eq_coe.mpr hperm

/-- C5 witness: the round trip instantiated over the concrete store with
one transaction and one budget of user uA, every hypothesis checked by
evaluation or by rfl. -/
theorem C5_witness :
    (((userTxns "uA" (importData (some "uA") [wTxn] [wBudget]
        (fun _ => "nt") (fun _ => "nb") "i0" []).2).map txnData : Multiset (ℚ × String × String × String × String)) =
      ((userTxns "uA" wStore).map txnData : Multiset (ℚ × String × String × String × String))) ∧
    (((userBudgets "uA" (importData (some "uA") [wTxn] [wBudget]
        (fun _ => "nt") (fun _ => "nb") "i0" []).2).map budgetData : Multiset (String × ℚ × String)) =
      ((userBudgets "uA" wStore).map budgetData : Multiset (String × ℚ × String))) :=
  C5_export_import_round_trip wStore "uA" "e0" "i0" (fun _ => "nt") (fun _ => "nb")
    { transactions := [wTxn], budgets := [wBudget], exportDate := "e0",
      version := "1.0" }
    (by decide) (by decide) (by decide) rfl (by decide) (by decide)
